import Mathlib

/-!
# Verification of the Resume_parser matching / scoring / experience core

Shallow embedding of the algorithmic core of the repository:

* `services/search_engine.py` — skill normalization, synonym/fuzzy skill
  matching, free-text and job-role ranking with the 70% cutoff;
* `services/shortlisted_db.py` — duration/date inference of work-experience
  years and the insert-or-ignore shortlist store.

Python strings are modelled as `String`/`List Char` (the inputs of interest are
ASCII, where `str.lower`, `str.strip` and the regexes below act exactly as the
embedded functions do).  Machine floats appear in the source in two places and
are modelled exactly where their behavior is exact and flagged where it is not:

* `int((m / t) * 100)` is modelled as the natural division `m * 100 / t`.
  CPython's float evaluation agrees with this exact floor for every
  denominator `t ≤ 49` (first divergence: `m = 29, t = 50`); the role skill
  lists and query term counts in play are far below that.
* `round(total_months / 12, 1)` is modelled as exact ties-to-even decimal
  rounding on `ℚ`, which agrees with CPython for every integer
  `total_months` with `|total_months| ≤ 1200`.

SQLite state (`shortlisted_candidates` with `UNIQUE(candidate_name, skills)`)
is modelled as a list of rows with explicit state passing; `datetime.now()` is
an explicit `(year, month)` parameter.
-/

namespace ResumeParser

/-! ## Character and string primitives -/

/-- The ASCII whitespace set of Python `str.strip()` and of the regex class
`\s` (space, tab, newline, carriage return, vertical tab, form feed). -/
def isPySpace (c : Char) : Bool :=
  c = ' ' || c = '\t' || c = '\n' || c = '\r' || c = '\x0b' || c = '\x0c'

/-- Characters deleted by `_normalize_skill`'s `re.sub(r'[.\-_\s]+', '', s)`:
the separators `.`, `-`, `_` and whitespace. -/
def isSkillSep (c : Char) : Bool :=
  c = '.' || c = '-' || c = '_' || isPySpace c

/-- Python `str.lower()` (ASCII). -/
def lowerStr (s : String) : String :=
  ⟨s.toList.map Char.toLower⟩

/-- Python `str.strip()`: drop leading and trailing whitespace. -/
def stripStr (s : String) : String :=
  ⟨((s.toList.dropWhile isPySpace).reverse.dropWhile isPySpace).reverse⟩

/-- Python `str.startswith`: `a` is a prefix of `b`. -/
def prefixOf : List Char → List Char → Bool
  | [], _ => true
  | _ :: _, [] => false
  | a :: as, b :: bs => a = b && prefixOf as bs

/-- Python `in` on strings: `a` occurs contiguously in `b` (the empty string
occurs in everything). -/
def substrOf (a : List Char) : List Char → Bool
  | [] => prefixOf a []
  | b :: bs => prefixOf a (b :: bs) || substrOf a bs

/-- Python `str.endswith`: `a` is a suffix of `b`. -/
def suffixOf (a b : List Char) : Bool :=
  prefixOf a.reverse b.reverse

/-- `a in b` for `String`s. -/
def containsSub (a b : String) : Bool :=
  substrOf a.toList b.toList

/-- Value of an ASCII digit. -/
def digitToNat (c : Char) : Nat :=
  c.toNat - 48

/-- Value of a digit run, most significant first. -/
def digitsToNat (ds : List Char) : Nat :=
  ds.foldl (fun acc c => 10 * acc + digitToNat c) 0

/-- The regex word class `\w` on the inputs of interest. -/
def isWordChar (c : Char) : Bool :=
  c.isAlphanum || c = '_'

/-- Code-point lexicographic order on character lists (Python `str` order,
used by `sorted`). -/
def strLeChars : List Char → List Char → Bool
  | [], _ => true
  | _ :: _, [] => false
  | a :: as, b :: bs => if a = b then strLeChars as bs else decide (a < b)

/-! ## Skill normalization and matching (`SearchEngine`) -/

/-- `SearchEngine._normalize_skill`: `skill.lower().strip()` followed by
`re.sub(r'[.\-_\s]+', '', ...)`.  The `strip` is subsumed by the substitution,
which already deletes every separator character everywhere in the string. -/
def normalize_skill (skill : String) : String :=
  ⟨(lowerStr skill).toList.filter (fun c => !isSkillSep c)⟩

/-- The `skill_synonyms` dict of `SearchEngine._skills_match`, in insertion
order. -/
def skill_synonyms : List (String × List String) := [
  ("javascript", ["javascript", "js"]),
  ("typescript", ["typescript", "ts"]),
  ("mongodb", ["mongodb", "mongo"]),
  ("nodejs", ["node", "nodejs"]),
  ("reactjs", ["react", "reactjs"]),
  ("react", ["react", "reactjs"]),
  ("nextjs", ["next", "nextjs"]),
  ("next", ["next", "nextjs"]),
  ("expressjs", ["express", "expressjs"]),
  ("express", ["express", "expressjs"]),
  ("git", ["git", "github", "gitlab"]),
  ("github", ["git", "github", "gitlab"]),
  ("gitlab", ["git", "github", "gitlab"]),
  ("aws", ["aws", "amazonwebservices"]),
  ("amazonwebservices", ["aws", "amazonwebservices"]),
  ("azure", ["azure", "microsoftazure"]),
  ("microsoftazure", ["azure", "microsoftazure"]),
  ("gcp", ["gcp", "googlecloudplatform", "googlecloud"]),
  ("googlecloudplatform", ["gcp", "googlecloudplatform", "googlecloud"]),
  ("googlecloud", ["gcp", "googlecloudplatform", "googlecloud"]),
  ("c", ["c", "clang", "cprogramming"]),
  ("cpp", ["cpp", "c++", "cplusplus"]),
  ("c++", ["cpp", "c++", "cplusplus"]),
  ("csharp", ["csharp", "c#"]),
  ("c#", ["csharp", "c#"]),
  ("r", ["r", "rprogramming", "rlanguage"]),
  ("go", ["go", "golang"]),
  ("golang", ["go", "golang"])]

/-- The synonym loop of `_skills_match`: some synonym set contains both
normalized forms. -/
def inSameSynonymGroup (nr nc : String) : Bool :=
  skill_synonyms.any (fun p => p.2.contains nr && p.2.contains nc)

/-- `SearchEngine._skills_match`.  The float comparisons
`required_len / candidate_len >= 0.6` and `candidate_len / required_len >= 0.75`
are rendered as the equivalent integer inequalities `3 * cl ≤ 5 * rl` and
`3 * rl ≤ 4 * cl` (exact for these magnitudes, boundary included: `0.75` is an
exact double, and a correctly rounded quotient equal to the rational `3/5`
compares equal to the double literal `0.6`). -/
def skills_match (required_skill candidate_skill : String) : Bool :=
  let nr := normalize_skill required_skill
  let nc := normalize_skill candidate_skill
  if nr = nc then true
  else if inSameSynonymGroup nr nc then true
  else
    let rl := nr.length
    let cl := nc.length
    if substrOf nr.toList nc.toList &&
        ((4 ≤ rl && (prefixOf nr.toList nc.toList || suffixOf nr.toList nc.toList)) ||
         (5 ≤ rl && 3 * cl ≤ 5 * rl)) then true
    else if substrOf nc.toList nr.toList && (4 ≤ cl && 3 * rl ≤ 4 * cl) then true
    else false

/-! ## Query parsing and match percentages (`SearchEngine`) -/

/-- The separator class of `_parse_search_query`'s `re.split(r'[,+\s]+', ...)`. -/
def isQuerySep (c : Char) : Bool :=
  c = ',' || c = '+' || isPySpace c

/-- Split on runs of separators, keeping the non-empty tokens (the accumulator
holds the current token, reversed). -/
def splitSepAux (p : Char → Bool) : List Char → List Char → List String
  | [], acc => if acc = [] then [] else [⟨acc.reverse⟩]
  | c :: cs, acc =>
    if p c then
      if acc = [] then splitSepAux p cs []
      else ⟨acc.reverse⟩ :: splitSepAux p cs []
    else splitSepAux p cs (c :: acc)

/-- `SearchEngine._parse_search_query`: lowercase, split on runs of
comma/plus/whitespace, drop empty terms (the per-term `strip` is a no-op since
tokens contain no whitespace). -/
def parse_search_query (query : String) : List String :=
  splitSepAux isQuerySep (lowerStr query).toList []

/-- `database/models.py` `Skill` (the columns the engine reads). -/
structure Skill where
  name : String
  normalized_name : String
  category : String := ""
deriving DecidableEq

/-- `database/models.py` `Candidate` (the columns the engine reads; the skill
list is the ordered relationship snapshot handed to the engine by the store). -/
structure Candidate where
  id : Nat
  name : String := ""
  email : String := ""
  phone : String := ""
  location : String := ""
  experience_summary : String := ""
  resume_file_path : String := ""
  skills : List Skill := []
deriving DecidableEq

/-- The matched-term count of `_calculate_match_percentage`: terms for which
some candidate skill's lowered `normalized_name` contains the term. -/
def matchedTermCount (skills : List Skill) (search_terms : List String) : Nat :=
  (search_terms.filter
    (fun t => (skills.map (fun sk => lowerStr sk.normalized_name)).any
      (fun sk => containsSub t sk))).length

/-- `SearchEngine._calculate_match_percentage` (only the candidate's skills are
consulted).  `int((matched / total) * 100)` truncates; it is modelled by the
natural division, the exact floor, which agrees with the CPython float
evaluation for every term count ≤ 49. -/
def calculate_match_percentage (skills : List Skill) (search_terms : List String) : Nat :=
  if search_terms = [] then 0
  else (matchedTermCount skills search_terms * 100) / search_terms.length

/-! ## Stable descending sort (`list.sort(key=..., reverse=True)`) -/

/-- Stable insert for a descending sort by `key`: the new element goes in front
of the first element whose key is ≤ its own, so ties keep their original
relative order — the behavior of Python's stable `sort` with `reverse=True`. -/
def insertDescBy {α : Type} (key : α → Nat) (x : α) : List α → List α
  | [] => [x]
  | y :: ys => if key y ≤ key x then x :: y :: ys else y :: insertDescBy key x ys

/-- Stable descending insertion sort by `key`. -/
def sortDescBy {α : Type} (key : α → Nat) : List α → List α
  | [] => []
  | x :: xs => insertDescBy key x (sortDescBy key xs)

/-! ## Free-text search path (`SearchEngine.search_candidates`) -/

/-- The result dict built by the loop of `search_candidates`. -/
structure SearchResult where
  id : Nat
  name : String
  email : String
  key_skills : List String
  experience_summary : String
  match_percentage : Nat
  resume_file_path : String
deriving DecidableEq

/-- One iteration of the result loop of `search_candidates`. -/
def free_text_entry (terms : List String) (c : Candidate) : SearchResult :=
  { id := c.id
    name := c.name
    email := c.email
    key_skills := (c.skills.take 10).map (fun sk => sk.name)
    experience_summary := c.experience_summary
    match_percentage := calculate_match_percentage c.skills terms
    resume_file_path := c.resume_file_path }

/-- `SearchEngine.search_candidates`, applied to the candidate list returned by
the SQL layer (the store and its LIKE-based pre-filter are the external
collaborator of spec §1; the scoring, 70% cutoff and sort happen here).
`skill_terms if query else []` is the empty-query guard of the source. -/
def search_candidates (query : String) (candidates : List Candidate) : List SearchResult :=
  let terms := if query = "" then [] else parse_search_query query
  let results := (candidates.map (free_text_entry terms)).filter
    (fun r => decide (70 ≤ r.match_percentage))
  sortDescBy (fun r => r.match_percentage) results

/-! ## Job-role search path (`SearchEngine.search_by_job_role`) -/

/-- One entry of the `job_roles.json` configuration. -/
structure JobRole where
  title : String
  skills : List String
deriving DecidableEq

/-- `job_role_key.lower().replace(' ', '_').replace('-', '_')`. -/
def normalize_role_key (k : String) : String :=
  ⟨(lowerStr k).toList.map (fun c => if c = ' ' || c = '-' then '_' else c)⟩

/-- The matched/missing split of the required-skill loop: each required skill
goes to `matched` when some candidate skill matches it (first-match
short-circuit — only existence matters), else to `missing`; both keep the
required order. -/
def splitMatched (candidate_skills : List String) : List String → List String × List String
  | [] => ([], [])
  | r :: rs =>
    let rest := splitMatched candidate_skills rs
    if candidate_skills.any (fun cSkill => skills_match r cSkill) then
      (r :: rest.1, rest.2)
    else (rest.1, r :: rest.2)

/-- `int((match_count / total_required) * 100) if total_required > 0 else 0`,
with the truncation modelled as the exact floor (see
`calculate_match_percentage`). -/
def role_match_percentage (required : List String) (candidate_skills : List String) : Nat :=
  if 0 < required.length then
    ((splitMatched candidate_skills required).1.length * 100) / required.length
  else 0

/-- The per-candidate result dict built by `search_by_job_role`. -/
structure RoleMatch where
  id : Nat
  name : String
  email : String
  phone : String
  location : String
  experience_summary : String
  match_percentage : Nat
  matched_skills : List String
  missing_skills : List String
  matched_count : Nat
  total_required : Nat
  all_candidate_skills : List String
deriving DecidableEq

/-- One iteration of the candidate loop of `search_by_job_role`. -/
def role_entry (required : List String) (c : Candidate) : RoleMatch :=
  let candidate_skills := c.skills.map (fun sk => sk.name)
  let split := splitMatched candidate_skills required
  { id := c.id
    name := c.name
    email := c.email
    phone := c.phone
    location := c.location
    experience_summary := c.experience_summary
    match_percentage := role_match_percentage required candidate_skills
    matched_skills := split.1
    missing_skills := split.2
    matched_count := split.1.length
    total_required := required.length
    all_candidate_skills := candidate_skills }

/-- The ranked candidate list of `search_by_job_role`: keep entries at ≥ 70%,
sort by percentage descending (stable). -/
def role_results (required : List String) (candidates : List Candidate) : List RoleMatch :=
  sortDescBy (fun r => r.match_percentage)
    ((candidates.map (role_entry required)).filter (fun r => decide (70 ≤ r.match_percentage)))

/-- The two shapes of the `search_by_job_role` response dict. -/
inductive RoleSearchResult where
  | notFound (message : String) (available_roles : List String)
  | found (job_role : String) (required_skills : List String)
      (total_candidates : Nat) (candidates : List RoleMatch)
deriving DecidableEq

/-- `SearchEngine.search_by_job_role`.  The `job_roles.json` configuration (not
part of the source tree; loaded by `_load_job_roles`) is an explicit
association list in insertion order; dict membership/indexing is `lookup`.
The source's failure message quotes the normalized key. -/
def search_by_job_role (job_roles : List (String × JobRole)) (candidates : List Candidate)
    (job_role_key : String) : RoleSearchResult :=
  let key := normalize_role_key job_role_key
  match job_roles.lookup key with
  | none =>
      .notFound ("Job role " ++ key ++ " not found") (job_roles.map Prod.fst)
  | some role =>
      .found role.title role.skills (role_results role.skills candidates).length
        (role_results role.skills candidates)

/-! ## Experience-duration inference (`ShortlistedDatabase`) -/

/-- The `MONTH_MAP` dict, in insertion order. -/
def MONTH_MAP : List (String × Nat) := [
  ("jan", 1), ("january", 1),
  ("feb", 2), ("february", 2),
  ("mar", 3), ("march", 3),
  ("apr", 4), ("april", 4),
  ("may", 5),
  ("jun", 6), ("june", 6),
  ("jul", 7), ("july", 7),
  ("aug", 8), ("august", 8),
  ("sep", 9), ("sept", 9), ("september", 9),
  ("oct", 10), ("october", 10),
  ("nov", 11), ("november", 11),
  ("dec", 12), ("december", 12)]

/-- An experience dict as consumed by `_calculate_work_experience_years`
(`exp.get('duration', '')` etc.; absent keys are the empty string). -/
structure ExperienceEntry where
  duration : String := ""
  start_date : String := ""
  end_date : String := ""
deriving DecidableEq

/-- `re.search(r'(\d{4})', s)`: value of the first four consecutive digits. -/
def find4Digits : List Char → Option Nat
  | a :: b :: c :: d :: rest =>
    if a.isDigit && b.isDigit && c.isDigit && d.isDigit then
      some (digitsToNat [a, b, c, d])
    else find4Digits (b :: c :: d :: rest)
  | _ => none

/-- The month-name loop: first `MONTH_MAP` entry (in insertion order) whose
name occurs in the string. -/
def monthFromName (t : String) : Option Nat :=
  (MONTH_MAP.find? (fun p => containsSub p.1 t)).map (fun p => p.2)

/-- The numeric-month probe `re.search` of a raw-string regex: word boundary
`\b`, then group `(\d{1,2})`, then the class of `/` and `-`; this finds the
leftmost position at a word boundary with one or two digits followed by `/`
or `-`.  The `Bool` argument records
whether the previous character was a word character (no boundary).  Greedy
`{1,2}` with backtracking: two digits are preferred; the one-digit fallback can
only succeed when the second character is not a digit. -/
def scanNumMonth : Bool → List Char → Option Nat
  | _, [] => none
  | prevWord, c :: rest =>
    if c.isDigit && !prevWord then
      match rest with
      | [] => none
      | d :: rest2 =>
        if d.isDigit then
          match rest2 with
          | e :: _ =>
            if e = '/' || e = '-' then some (10 * digitToNat c + digitToNat d)
            else scanNumMonth true rest
          | [] => scanNumMonth true rest
        else if d = '/' || d = '-' then some (digitToNat c)
        else scanNumMonth true rest
    else scanNumMonth (isWordChar c) rest

/-- `ShortlistedDatabase._parse_date`; `datetime.now()` is the explicit
`(year, month)` argument `now`. -/
def parse_date (now : Nat × Nat) (date_str : String) : Nat × Nat :=
  if date_str = "" then (0, 0)
  else
    let t := stripStr (lowerStr date_str)
    if containsSub "present" t || containsSub "current" t || containsSub "now" t then now
    else
      let year := (find4Digits t.toList).getD 0
      let monthName := (monthFromName t).getD 1
      let month :=
        match scanNumMonth false t.toList with
        | some pm => if 1 ≤ pm && pm ≤ 12 then pm else monthName
        | none => monthName
      (year, month)

/-- Leftmost match of `(\d+)\s*(?:kw1|kw2)` on a lowered string, returning the
captured digits, per `re.search(r'(\d+)\s*(?:year|yr)s?', ..., re.IGNORECASE)`
(the optional `s` never affects the captured group).  Greedy backtracking can
never shrink the digit run or the whitespace run, because the keywords start
with a letter; so the maximal run at the match position is captured. -/
def findNumBefore (kws : List String) : List Char → Option Nat
  | [] => none
  | c :: rest =>
    if c.isDigit then
      let run := (c :: rest).takeWhile Char.isDigit
      let after := ((c :: rest).dropWhile Char.isDigit).dropWhile isPySpace
      if kws.any (fun k => prefixOf k.toList after) then some (digitsToNat run)
      else findNumBefore kws rest
    else findNumBefore kws rest

/-- The `years` captured from `duration` by `(\d+)\s*(?:year|yr)s?` (0 when
there is no match). -/
def duration_years (duration : String) : Nat :=
  (findNumBefore ["year", "yr"] (lowerStr duration).toList).getD 0

/-- The `months` captured from `duration` by `(\d+)\s*(?:month|mo)s?` (0 when
there is no match). -/
def duration_months_field (duration : String) : Nat :=
  (findNumBefore ["month", "mo"] (lowerStr duration).toList).getD 0

/-- `months_from_duration` as computed per entry: 0 when `duration` is falsy,
else `years * 12 + months` from the two regexes. -/
def months_from_duration (duration : String) : Nat :=
  if duration = "" then 0
  else duration_years duration * 12 + duration_months_field duration

/-- The loop body of `_calculate_work_experience_years`: the months one entry
adds to `total_months`.  A positive duration-pattern value wins and the date
fields are not consulted; otherwise the date path runs, adding
`(end_year - start_year) * 12 + (end_month - start_month)` when both years are
positive and the difference is positive. -/
def entry_months (now : Nat × Nat) (exp : ExperienceEntry) : Int :=
  let fromDuration := months_from_duration exp.duration
  if 0 < fromDuration then (fromDuration : Int)
  else if exp.start_date = "" then 0
  else
    let s := parse_date now exp.start_date
    let e := if exp.end_date = "" then now else parse_date now exp.end_date
    if 0 < s.1 && 0 < e.1 then
      let months_diff : Int := ((e.1 : Int) - (s.1 : Int)) * 12 + ((e.2 : Int) - (s.2 : Int))
      if 0 < months_diff then months_diff else 0
    else 0

/-- The `total_months` accumulation loop. -/
def total_months (now : Nat × Nat) (experiences : List ExperienceEntry) : Int :=
  experiences.foldl (fun acc exp => acc + entry_months now exp) 0

/-- Round half to even on an exact rational (Python `round`'s tie rule; on the
values arising here, `10 * m / 12` for integer `m`, this agrees with CPython's
float `round` — checked for all `|m| ≤ 1200`). -/
def roundHalfEven (q : ℚ) : Int :=
  let n := ⌊q⌋
  if q - n < 1 / 2 then n
  else if (1 : ℚ) / 2 < q - n then n + 1
  else if n % 2 = 0 then n else n + 1

/-- Python `round(x, 1)` on an exact rational. -/
def round1 (q : ℚ) : ℚ :=
  (roundHalfEven (10 * q) : ℚ) / 10

/-- `ShortlistedDatabase._calculate_work_experience_years`:
`round(total_months / 12, 1) if total_months > 0 else 0.0`. -/
def calculate_work_experience_years (now : Nat × Nat)
    (experiences : List ExperienceEntry) : ℚ :=
  let t := total_months now experiences
  if 0 < t then round1 ((t : ℚ) / 12) else 0

/-! ## The shortlist store (`ShortlistedDatabase`) -/

/-- Ascending stable insertion for Python `sorted` on strings. -/
def insertSortedStr (x : String) : List String → List String
  | [] => [x]
  | y :: ys => if strLeChars x.toList y.toList then x :: y :: ys else y :: insertSortedStr x ys

/-- Python `sorted` on strings (code-point lexicographic). -/
def sortStrings : List String → List String
  | [] => []
  | x :: xs => insertSortedStr x (sortStrings xs)

/-- `ShortlistedDatabase._normalize_skills`: strip+lower each entry, dropping
falsy/whitespace-only ones; `sorted(set(...))`; join with `", "`. -/
def normalize_skills (skills : List String) : String :=
  let normalized := (skills.filter (fun s => s ≠ "" && stripStr s ≠ "")).map
    (fun s => lowerStr (stripStr s))
  String.intercalate ", " (sortStrings normalized.dedup)

/-- A row of the `shortlisted_candidates` table: the columns written by
`store_shortlisted_candidate` (the surrogate `id` and the `created_at`
timestamp are opaque defaults, consulted by none of the claims). -/
structure ShortRow where
  candidate_name : String
  work_experience_years : ℚ
  skills : String
deriving DecidableEq

/-- `INSERT OR IGNORE` under `UNIQUE(candidate_name, skills)`: append the row
unless a row with the same (candidate_name, skills) pair already exists. -/
def insertOrIgnore (row : ShortRow) (db : List ShortRow) : List ShortRow :=
  if db.any (fun r => r.candidate_name == row.candidate_name && r.skills == row.skills) then db
  else db ++ [row]

/-- `ShortlistedDatabase.store_shortlisted_candidate`, with the sqlite state
passed explicitly; returns the success flag and the new state.
`candidate_name.strip() if candidate_name else ""` is `stripStr` (a falsy
`None`/`""` argument strips to `""` either way); a blank stripped name returns
`False` before any write. -/
def store_shortlisted_candidate (now : Nat × Nat) (candidate_name : String)
    (experiences : List ExperienceEntry) (skills : List String)
    (db : List ShortRow) : Bool × List ShortRow :=
  let work_experience_years := calculate_work_experience_years now experiences
  let skills_str := normalize_skills skills
  let candidate_name_normalized := stripStr candidate_name
  if candidate_name_normalized = "" then (false, db)
  else
    (true, insertOrIgnore
      { candidate_name := candidate_name_normalized
        work_experience_years := work_experience_years
        skills := skills_str } db)

/-- A row of the spec's shortlist store, carrying the projects CSV the spec
describes. -/
structure SpecShortRow where
  candidate_name : String
  work_experience_years : ℚ
  skills : String
  projects : String
deriving DecidableEq

/-- Modelled from the spec: spec §4.5's Shortlist Recorder contract
`record(name, experiences, skills, projects)` with insert-or-ignore keyed on
the (name, normalizedSkills, normalizedProjects) triple.  No such projects
parameter, column, or key exists anywhere in the source
(`store_shortlisted_candidate` takes (name, experiences, skills) and the table
is `UNIQUE(candidate_name, skills)`); this definition exists only to contrast
the spec's claimed behavior with the source's. -/
def record_spec (now : Nat × Nat) (candidate_name : String)
    (experiences : List ExperienceEntry) (skills projects : List String)
    (db : List SpecShortRow) : Bool × List SpecShortRow :=
  let years := calculate_work_experience_years now experiences
  let skills_str := normalize_skills skills
  let projects_str := normalize_skills projects
  let name := stripStr candidate_name
  if name = "" then (false, db)
  else if db.any (fun r => r.candidate_name == name && r.skills == skills_str &&
      r.projects == projects_str) then (true, db)
  else
    (true, db ++ [{ candidate_name := name
                    work_experience_years := years
                    skills := skills_str
                    projects := projects_str }])

/-! ## General lemmas -/

theorem mem_insertDescBy {α : Type} (key : α → Nat) (x : α) (l : List α) (a : α) :
    a ∈ insertDescBy key x l ↔ a = x ∨ a ∈ l := by
  induction l with
  | nil => simp [insertDescBy]
  | cons y ys ih =>
    by_cases h : key y ≤ key x
    · simp [insertDescBy, h]
    · simp only [insertDescBy, if_neg h, List.mem_cons, ih]
      tauto

theorem mem_sortDescBy {α : Type} (key : α → Nat) (l : List α) (a : α) :
    a ∈ sortDescBy key l ↔ a ∈ l := by
  induction l with
  | nil => simp [sortDescBy]
  | cons x xs ih => simp [sortDescBy, mem_insertDescBy, ih]

theorem pairwise_insertDescBy {α : Type} (key : α → Nat) (x : α) (l : List α)
    (h : List.Pairwise (fun a b => key b ≤ key a) l) :
    List.Pairwise (fun a b => key b ≤ key a) (insertDescBy key x l) := by
  induction l with
  | nil => simp [insertDescBy]
  | cons y ys ih =>
    rcases List.pairwise_cons.mp h with ⟨hy, hys⟩
    by_cases hxy : key y ≤ key x
    · simp only [insertDescBy, if_pos hxy]
      refine List.pairwise_cons.mpr ⟨?_, h⟩
      intro b hb
      rcases List.mem_cons.mp hb with rfl | hb
      · exact hxy
      · exact le_trans (hy b hb) hxy
    · simp only [insertDescBy, if_neg hxy]
      refine List.pairwise_cons.mpr ⟨?_, ih hys⟩
      intro b hb
      rcases (mem_insertDescBy key x ys b).mp hb with rfl | hb
      · exact Nat.le_of_lt (Nat.lt_of_not_le hxy)
      · exact hy b hb

theorem pairwise_sortDescBy {α : Type} (key : α → Nat) (l : List α) :
    List.Pairwise (fun a b => key b ≤ key a) (sortDescBy key l) := by
  induction l with
  | nil => simp [sortDescBy]
  | cons x xs ih => exact pairwise_insertDescBy key x _ ih

theorem filter_insertDescBy {α : Type} (key : α → Nat) (x : α) (l : List α) (m : Nat) :
    (insertDescBy key x l).filter (fun a => key a == m) =
      (x :: l).filter (fun a => key a == m) := by
  induction l with
  | nil => rfl
  | cons y ys ih =>
    by_cases hxy : key y ≤ key x
    · simp [insertDescBy, hxy]
    · have hlt : key x < key y := Nat.lt_of_not_le hxy
      simp only [insertDescBy, if_neg hxy]
      by_cases hx : key x = m
      · have hy : ¬ key y = m := by omega
        simp [List.filter_cons, hx, hy, ih]
      · by_cases hy : key y = m
        · simp [List.filter_cons, hx, hy, ih]
        · simp [List.filter_cons, hx, hy, ih]

theorem filter_sortDescBy {α : Type} (key : α → Nat) (l : List α) (m : Nat) :
    (sortDescBy key l).filter (fun a => key a == m) = l.filter (fun a => key a == m) := by
  induction l with
  | nil => rfl
  | cons x xs ih =>
    rw [sortDescBy, filter_insertDescBy, List.filter_cons, List.filter_cons, ih]

/-- A Boolean if-chain returning `true`/`true`/`false` is a disjunction. -/
theorem ite_or (a b : Bool) : (if a then true else if b then true else false) = (a || b) := by
  cases a <;> cases b <;> rfl

theorem substr_nil (a : List Char) : substrOf a [] = true ↔ a = [] := by
  cases a <;> simp [substrOf, prefixOf]

theorem pos_of_substr_ne {a b : List Char} (hs : substrOf a b = true) (hne : a ≠ b) :
    0 < b.length := by
  cases b with
  | nil =>
    exfalso
    exact hne ((substr_nil a).mp hs)
  | cons c cs => simp

theorem ratio06 (r c : Nat) (hc : 0 < c) :
    ((0.6 : ℚ) ≤ (r : ℚ) / c) ↔ 3 * c ≤ 5 * r := by
  have hc' : (0 : ℚ) < c := by exact_mod_cast hc
  rw [le_div_iff₀ hc']
  have h06 : (0.6 : ℚ) = 3 / 5 := by norm_num
  constructor
  · intro h
    have h5 : (3 : ℚ) * c ≤ 5 * r := by rw [h06] at h; linarith
    exact_mod_cast h5
  · intro h
    have h5 : (3 : ℚ) * c ≤ 5 * r := by exact_mod_cast h
    rw [h06]; linarith

theorem ratio075 (c r : Nat) (hr : 0 < r) :
    ((0.75 : ℚ) ≤ (c : ℚ) / r) ↔ 3 * r ≤ 4 * c := by
  have hr' : (0 : ℚ) < r := by exact_mod_cast hr
  rw [le_div_iff₀ hr']
  have h075 : (0.75 : ℚ) = 3 / 4 := by norm_num
  constructor
  · intro h
    have h4 : (3 : ℚ) * r ≤ 4 * c := by rw [h075] at h; linarith
    exact_mod_cast h4
  · intro h
    have h4 : (3 : ℚ) * r ≤ 4 * c := by exact_mod_cast h
    rw [h075]; linarith

theorem floor_ratio_mul (m t : Nat) : ⌊((m : ℚ) / t) * 100⌋₊ = m * 100 / t := by
  rw [div_mul_eq_mul_div, show ((m : ℚ) * 100) = ((m * 100 : ℕ) : ℚ) by push_cast; ring,
    Nat.floor_div_nat, Nat.floor_natCast]

theorem lookup_eq_none_of_not_mem {β : Type} (l : List (String × β)) (k : String)
    (h : k ∉ l.map Prod.fst) : l.lookup k = none := by
  induction l with
  | nil => rfl
  | cons p ps ih =>
    obtain ⟨a, b⟩ := p
    simp only [List.map_cons, List.mem_cons] at h
    push_neg at h
    simp only [List.lookup]
    rw [show (k == a) = false from beq_eq_false_iff_ne.mpr h.1]
    exact ih h.2

theorem foldl_add_shift {α : Type} (f : α → Int) (l : List α) (a : Int) :
    l.foldl (fun acc x => acc + f x) a = a + l.foldl (fun acc x => acc + f x) 0 := by
  induction l generalizing a with
  | nil => simp
  | cons x xs ih =>
    simp only [List.foldl]
    rw [ih (a + f x), ih (0 + f x)]
    ring

theorem total_months_cons (now : Nat × Nat) (e : ExperienceEntry) (l : List ExperienceEntry) :
    total_months now (e :: l) = entry_months now e + total_months now l := by
  unfold total_months
  simp only [List.foldl]
  rw [foldl_add_shift]
  ring

theorem total_months_eq_sum (now : Nat × Nat) (l : List ExperienceEntry) :
    total_months now l = (l.map (entry_months now)).sum := by
  induction l with
  | nil => rfl
  | cons e es ih => rw [total_months_cons, List.map_cons, List.sum_cons, ih]

theorem entry_months_nonneg (now : Nat × Nat) (e : ExperienceEntry) :
    0 ≤ entry_months now e := by
  unfold entry_months
  dsimp only
  repeat' split
  all_goals omega

theorem roundHalfEven_nonneg (q : ℚ) (h : 0 ≤ q) : 0 ≤ roundHalfEven q := by
  unfold roundHalfEven
  have h0 : (0 : ℤ) ≤ ⌊q⌋ := Int.floor_nonneg.mpr h
  dsimp only
  split
  · exact h0
  · split
    · omega
    · split <;> omega

theorem round1_nonneg (q : ℚ) (h : 0 ≤ q) : 0 ≤ round1 q := by
  unfold round1
  have hn := roundHalfEven_nonneg (10 * q) (by positivity)
  have hcast : (0 : ℚ) ≤ (roundHalfEven (10 * q) : ℚ) := by exact_mod_cast hn
  positivity

theorem roundHalfEven_intCast (n : ℤ) : roundHalfEven ((n : ℤ) : ℚ) = n := by
  unfold roundHalfEven
  simp only [Int.floor_intCast, sub_self]
  rw [if_pos (by norm_num : (0 : ℚ) < 1 / 2)]

theorem round1_intCast (n : ℤ) : round1 ((n : ℤ) : ℚ) = n := by
  unfold round1
  rw [show (10 : ℚ) * n = ((10 * n : ℤ) : ℚ) by push_cast; ring, roundHalfEven_intCast]
  push_cast
  rw [mul_comm]
  exact mul_div_cancel_right₀ (n : ℚ) (by norm_num)

theorem round1_zero : round1 0 = 0 := by
  rw [show (0 : ℚ) = ((0 : ℤ) : ℚ) by norm_num, round1_intCast]

/-! ## The claims -/

/-- C1, counterexample: the claim says the match percentage is
`round(matchedCount / totalRequired * 100)`; with 2 of 3 terms matched the code
computes `int((2/3)*100) = 66`, while the claimed round is 67. -/
theorem claim_C1_counterexample :
    calculate_match_percentage [⟨"Java", "java", ""⟩, ⟨"SQL", "sql", ""⟩]
      ["java", "riot", "sql"] = 66 ∧
    round (((2 : ℚ) / 3) * 100) = 67 := by
  constructor
  · decide
  · rw [round_eq, show ((2 : ℚ) / 3) * 100 + 1 / 2 = 403 / 6 by norm_num]
    rw [Int.floor_eq_iff]
    constructor <;> norm_num

/-- C1 (amended): on both the job-role path and the free-text path the match
percentage is the floor (integer truncation), not the round, of
`matchedCount / totalRequired * 100` when the denominator is positive, and 0
otherwise. -/
theorem claim_C1 (required candidate_skills : List String) (skills : List Skill)
    (terms : List String) :
    role_match_percentage required candidate_skills =
      (if 0 < required.length then
        ⌊(((splitMatched candidate_skills required).1.length : ℚ) / (required.length : ℚ)) * 100⌋₊
      else 0) ∧
    calculate_match_percentage skills terms =
      (if 0 < terms.length then
        ⌊((matchedTermCount skills terms : ℚ) / (terms.length : ℚ)) * 100⌋₊
      else 0) := by
  constructor
  · unfold role_match_percentage
    by_cases h : 0 < required.length
    · rw [if_pos h, if_pos h, floor_ratio_mul]
    · rw [if_neg h, if_neg h]
  · unfold calculate_match_percentage
    by_cases h : terms = []
    · rw [if_pos h, if_neg (by simp [h])]
    · rw [if_neg h, if_pos (List.length_pos.mpr h), floor_ratio_mul]

/-- C2, counterexample: the claim says rows are keyed by the
(name, skills, projects) triple, so that two events with the same name and
skills but different remaining data yield two rows.  The source's `record` has
no projects parameter or column at all and the table key is the pair: two calls
for "Alice" with the same skill set and different experience data collapse to a
single row, whereas the spec-modelled triple-keyed recorder keeps two rows for
two distinct project sets. -/
theorem claim_C2_counterexample :
    (store_shortlisted_candidate (2024, 6) "Alice" [⟨"3 years", "", ""⟩] ["Python", "SQL"]
        (store_shortlisted_candidate (2024, 6) "Alice" [] ["Python", "SQL"] []).2).2.length = 1 ∧
    (record_spec (2024, 6) "Alice" [] ["Python", "SQL"] ["app"]
        (record_spec (2024, 6) "Alice" [] ["Python", "SQL"] ["site"] []).2).2.length = 2 := by
  constructor
  · decide
  · decide

/-- C2 (amended): every persisted shortlist row is keyed by the pair
(stripped candidate name, normalized skills CSV); starting from an empty store,
two successful record calls collapse to one row exactly when those two
components coincide — there is no projects component. -/
theorem claim_C2 (now1 now2 : Nat × Nat) (n1 n2 : String)
    (e1 e2 : List ExperienceEntry) (s1 s2 : List String)
    (h1 : stripStr n1 ≠ "") (h2 : stripStr n2 ≠ "") :
    ((store_shortlisted_candidate now2 n2 e2 s2
        (store_shortlisted_candidate now1 n1 e1 s1 []).2).2.length = 1 ↔
      (stripStr n2 = stripStr n1 ∧ normalize_skills s2 = normalize_skills s1)) := by
  simp only [store_shortlisted_candidate, insertOrIgnore, if_neg h1, if_neg h2,
    List.any_nil, Bool.false_eq_true, if_false, List.nil_append, List.any_cons,
    Bool.or_false]
  have hcond : (stripStr n1 == stripStr n2 &&
      (normalize_skills s1 == normalize_skills s2)) = true ↔
      (stripStr n2 = stripStr n1 ∧ normalize_skills s2 = normalize_skills s1) := by
    rw [Bool.and_eq_true, beq_iff_eq, beq_iff_eq]
    constructor
    · rintro ⟨x, y⟩
      exact ⟨x.symm, y.symm⟩
    · rintro ⟨x, y⟩
      exact ⟨x.symm, y.symm⟩
  by_cases hc : (stripStr n1 == stripStr n2 &&
      (normalize_skills s1 == normalize_skills s2)) = true
  · rw [if_pos hc]
    simp only [List.length_cons, List.length_nil]
    exact iff_of_true trivial (hcond.mp hc)
  · rw [if_neg hc]
    simp only [List.cons_append, List.nil_append, List.length_cons, List.length_nil]
    constructor
    · intro habs
      exact absurd habs (by norm_num)
    · intro hrhs
      exact absurd (hcond.mpr hrhs) hc

/-- C2, witness: two calls for "Alice" whose skill lists both normalize to
"python, sql" collapse to one row. -/
theorem claim_C2_witness :
    (store_shortlisted_candidate (2024, 6) "Alice" [] ["Python ", "sql"]
        (store_shortlisted_candidate (2024, 6) "Alice" [] ["SQL", "python"] []).2).2.length = 1 :=
  (claim_C2 (2024, 6) (2024, 6) "Alice" "Alice" [] [] ["SQL", "python"] ["Python ", "sql"]
    (by decide) (by decide)).mpr ⟨rfl, by decide⟩

/-- C3, counterexample: the claim says an entry whose duration text contains an
explicit year/month pattern never consults the date fields, regardless of the
pattern's numeric value.  For duration "0 years" the pattern is present with
value 0, yet the code falls through to the dates and the entry contributes 12
months (total 1.0 years); under the claim the entry would contribute
0×12+0 = 0 months and the total would be 0. -/
theorem claim_C3_counterexample :
    findNumBefore ["year", "yr"] (lowerStr "0 years").toList = some 0 ∧
    calculate_work_experience_years (2025, 6) [⟨"0 years", "jan 2020", "jan 2021"⟩] = 1 := by
  constructor
  · decide
  · have ht : total_months (2025, 6) [⟨"0 years", "jan 2020", "jan 2021"⟩] = 12 := by decide
    simp only [calculate_work_experience_years]
    rw [ht, if_pos (by norm_num : (0 : ℤ) < 12)]
    rw [show ((12 : ℤ) : ℚ) / 12 = ((1 : ℤ) : ℚ) by norm_num, round1_intCast]
    norm_num

/-- C3 (amended): an entry whose duration pattern yields a positive
`years*12 + months` contributes exactly that many months, with the date fields
never consulted; a pattern yielding zero months falls through to date
parsing. -/
theorem claim_C3 (now : Nat × Nat) (d s1 e1 s2 e2 : String) (rest : List ExperienceEntry)
    (h : 0 < months_from_duration d) :
    entry_months now ⟨d, s1, e1⟩ =
      ((duration_years d * 12 + duration_months_field d : ℕ) : ℤ) ∧
    entry_months now ⟨d, s1, e1⟩ = entry_months now ⟨d, s2, e2⟩ ∧
    total_months now (⟨d, s1, e1⟩ :: rest) =
      (months_from_duration d : ℤ) + total_months now rest := by
  have hd : d ≠ "" := by
    intro hd
    rw [hd] at h
    simp [months_from_duration] at h
  have hm : months_from_duration d = duration_years d * 12 + duration_months_field d := by
    unfold months_from_duration
    rw [if_neg hd]
  have he : ∀ s e : String, entry_months now ⟨d, s, e⟩ = (months_from_duration d : ℤ) := by
    intro s e
    simp only [entry_months]
    rw [if_pos h]
  refine ⟨by rw [he, hm], by rw [he, he], ?_⟩
  rw [total_months_cons, he]

/-- C3, witness: "2 years 3 months" contributes 27 months even next to date
fields that would parse to a negative span. -/
theorem claim_C3_witness :
    entry_months (2024, 1) ⟨"2 years 3 months", "jan 2019", "jan 2018"⟩ =
      ((duration_years "2 years 3 months" * 12 +
        duration_months_field "2 years 3 months" : ℕ) : ℤ) :=
  (claim_C3 (2024, 1) "2 years 3 months" "jan 2019" "jan 2018" "x" "y" [] (by decide)).1

/-- C4: calling record twice with identical arguments yields exactly one
persisted row; the second call still reports success and leaves the store
unchanged. -/
theorem claim_C4 (now : Nat × Nat) (n : String) (e : List ExperienceEntry)
    (s : List String) (h : stripStr n ≠ "") :
    (store_shortlisted_candidate now n e s []).1 = true ∧
    (store_shortlisted_candidate now n e s []).2.length = 1 ∧
    store_shortlisted_candidate now n e s (store_shortlisted_candidate now n e s []).2 =
      (true, (store_shortlisted_candidate now n e s []).2) := by
  simp only [store_shortlisted_candidate, insertOrIgnore, if_neg h, List.any_nil,
    Bool.false_eq_true, if_false, List.nil_append, List.any_cons, Bool.or_false]
  refine ⟨trivial, rfl, ?_⟩
  simp

/-- C4, witness. -/
theorem claim_C4_witness :
    store_shortlisted_candidate (2024, 6) "Alice" [] ["Python", "SQL"]
        (store_shortlisted_candidate (2024, 6) "Alice" [] ["Python", "SQL"] []).2 =
      (true, (store_shortlisted_candidate (2024, 6) "Alice" [] ["Python", "SQL"] []).2) :=
  (claim_C4 (2024, 6) "Alice" [] ["Python", "SQL"] (by decide)).2.2

/-- C5: for normalized-unequal, non-synonym pairs, `_skills_match` is exactly
the claimed substring/length heuristic (the length-ratio gates stated over ℚ,
as in the claim). -/
theorem claim_C5 (required candidate : String)
    (hne : normalize_skill required ≠ normalize_skill candidate)
    (hsyn : inSameSynonymGroup (normalize_skill required) (normalize_skill candidate) = false) :
    (skills_match required candidate = true ↔
      ((substrOf (normalize_skill required).toList (normalize_skill candidate).toList = true ∧
        ((4 ≤ (normalize_skill required).length ∧
           (prefixOf (normalize_skill required).toList (normalize_skill candidate).toList = true ∨
            suffixOf (normalize_skill required).toList (normalize_skill candidate).toList = true)) ∨
         (5 ≤ (normalize_skill required).length ∧
           (0.6 : ℚ) ≤ ((normalize_skill required).length : ℚ) /
             ((normalize_skill candidate).length : ℚ)))) ∨
       (substrOf (normalize_skill candidate).toList (normalize_skill required).toList = true ∧
        4 ≤ (normalize_skill candidate).length ∧
        (0.75 : ℚ) ≤ ((normalize_skill candidate).length : ℚ) /
          ((normalize_skill required).length : ℚ)))) := by
  have hne' : (normalize_skill required).toList ≠ (normalize_skill candidate).toList :=
    fun hl => hne (String.ext hl)
  have hsyn' : ¬ (inSameSynonymGroup (normalize_skill required)
      (normalize_skill candidate) = true) := by
    simp [hsyn]
  simp only [skills_match]
  rw [if_neg hne, if_neg hsyn', ite_or]
  simp only [Bool.or_eq_true, Bool.and_eq_true, decide_eq_true_eq]
  constructor
  · rintro (⟨hs, h4ps | ⟨h5, hq⟩⟩ | ⟨hs, h4, hq⟩)
    · exact Or.inl ⟨hs, Or.inl h4ps⟩
    · exact Or.inl ⟨hs, Or.inr ⟨h5, (ratio06 _ _ (pos_of_substr_ne hs hne')).mpr hq⟩⟩
    · exact Or.inr ⟨hs, h4, (ratio075 _ _ (pos_of_substr_ne hs (Ne.symm hne'))).mpr hq⟩
  · rintro (⟨hs, h4ps | ⟨h5, hq⟩⟩ | ⟨hs, h4, hq⟩)
    · exact Or.inl ⟨hs, Or.inl h4ps⟩
    · exact Or.inl ⟨hs, Or.inr ⟨h5, (ratio06 _ _ (pos_of_substr_ne hs hne')).mp hq⟩⟩
    · exact Or.inr ⟨hs, h4, (ratio075 _ _ (pos_of_substr_ne hs (Ne.symm hne'))).mp hq⟩

/-- C5, witness: "django" vs "djangorest" is unequal and non-synonym, and
matches through the substring-prefix branch. -/
theorem claim_C5_witness : skills_match "django" "djangorest" = true :=
  (claim_C5 "django" "djangorest" (by decide) (by decide)).mpr
    (Or.inl ⟨by decide, Or.inl ⟨by decide, Or.inl (by decide)⟩⟩)

/-- C6: per-entry month contributions are never negative, the total is the sum
of the contributions divided by 12 and rounded to one decimal, and the result
is never negative. -/
theorem claim_C6 (now : Nat × Nat) (exps : List ExperienceEntry) :
    (∀ e ∈ exps, 0 ≤ entry_months now e) ∧
    calculate_work_experience_years now exps =
      round1 ((((exps.map (entry_months now)).sum : ℤ) : ℚ) / 12) ∧
    0 ≤ calculate_work_experience_years now exps := by
  have hsum : 0 ≤ total_months now exps := by
    rw [total_months_eq_sum]
    refine List.sum_nonneg ?_
    intro x hx
    rcases List.mem_map.mp hx with ⟨e, _, rfl⟩
    exact entry_months_nonneg now e
  refine ⟨fun e _ => entry_months_nonneg now e, ?_, ?_⟩
  · simp only [calculate_work_experience_years]
    rw [← total_months_eq_sum]
    by_cases h : 0 < total_months now exps
    · rw [if_pos h]
    · rw [if_neg h, show total_months now exps = 0 from le_antisymm (not_lt.mp h) hsum,
        Int.cast_zero, zero_div, round1_zero]
  · simp only [calculate_work_experience_years]
    by_cases h : 0 < total_months now exps
    · rw [if_pos h]
      exact round1_nonneg _ (div_nonneg (by exact_mod_cast le_of_lt h) (by norm_num))
    · rw [if_neg h]

/-- C6, witness: an entry whose date pair spans a negative interval contributes
a nonnegative (zero) month count. -/
theorem claim_C6_witness :
    0 ≤ entry_months (2024, 6) ⟨"", "jan 2021", "jan 2020"⟩ :=
  (claim_C6 (2024, 6) [⟨"", "jan 2021", "jan 2020"⟩]).1 ⟨"", "jan 2021", "jan 2020"⟩
    (List.mem_singleton_self _)

/-- C7: on both search paths every kept result has percentage ≥ 70, the output
is sorted by percentage descending, and for every percentage value the tied
results appear exactly in their pre-sort (original retrieval) order. -/
theorem claim_C7 (query : String) (cands : List Candidate) (required : List String) :
    (∀ r ∈ search_candidates query cands, 70 ≤ r.match_percentage) ∧
    List.Pairwise (fun a b => b.match_percentage ≤ a.match_percentage)
      (search_candidates query cands) ∧
    (∀ m : Nat, (search_candidates query cands).filter (fun r => r.match_percentage == m) =
      ((cands.map (free_text_entry (if query = "" then [] else parse_search_query query))).filter
        (fun r => decide (70 ≤ r.match_percentage))).filter (fun r => r.match_percentage == m)) ∧
    (∀ r ∈ role_results required cands, 70 ≤ r.match_percentage) ∧
    List.Pairwise (fun a b => b.match_percentage ≤ a.match_percentage)
      (role_results required cands) ∧
    (∀ m : Nat, (role_results required cands).filter (fun r => r.match_percentage == m) =
      ((cands.map (role_entry required)).filter
        (fun r => decide (70 ≤ r.match_percentage))).filter (fun r => r.match_percentage == m)) := by
  simp only [search_candidates, role_results]
  refine ⟨?_, ?_, ?_, ?_, ?_, ?_⟩
  · intro r hr
    have h2 := List.of_mem_filter ((mem_sortDescBy _ _ r).mp hr)
    simpa using h2
  · exact pairwise_sortDescBy _ _
  · intro m
    exact filter_sortDescBy _ _ m
  · intro r hr
    have h2 := List.of_mem_filter ((mem_sortDescBy _ _ r).mp hr)
    simpa using h2
  · exact pairwise_sortDescBy _ _
  · intro m
    exact filter_sortDescBy _ _ m

/-- C7, witness: a fully matching candidate is kept with its 100% entry. -/
theorem claim_C7_witness :
    70 ≤ (SearchResult.mk 1 "Ada" "" ["Python", "SQL"] "" 100 "").match_percentage :=
  (claim_C7 "python sql"
      [⟨1, "Ada", "", "", "", "", "", [⟨"Python", "python", ""⟩, ⟨"SQL", "sql", ""⟩]⟩] []).1
    (SearchResult.mk 1 "Ada" "" ["Python", "SQL"] "" 100 "") (by decide)

/-- C8: two skills whose normalized forms lie in the same synonym set of the
fixed table match in both argument orders. -/
theorem claim_C8 (a b : String)
    (h : ∃ p ∈ skill_synonyms, normalize_skill a ∈ p.2 ∧ normalize_skill b ∈ p.2) :
    skills_match a b = true ∧ skills_match b a = true := by
  have key : ∀ x y : String,
      (∃ p ∈ skill_synonyms, normalize_skill x ∈ p.2 ∧ normalize_skill y ∈ p.2) →
      skills_match x y = true := by
    intro x y hxy
    by_cases he : normalize_skill x = normalize_skill y
    · simp only [skills_match]
      rw [if_pos he]
    · have hsyn : inSameSynonymGroup (normalize_skill x) (normalize_skill y) = true := by
        rcases hxy with ⟨p, hp, hx1, hy1⟩
        unfold inSameSynonymGroup
        refine List.any_eq_true.mpr ⟨p, hp, ?_⟩
        rw [Bool.and_eq_true]
        exact ⟨List.elem_iff.mpr hx1, List.elem_iff.mpr hy1⟩
      simp only [skills_match]
      rw [if_neg he, if_pos hsyn]
  refine ⟨key a b h, key b a ?_⟩
  rcases h with ⟨p, hp, h1, h2⟩
  exact ⟨p, hp, h2, h1⟩

/-- C8, witness: "js" and "javascript" match in both orders. -/
theorem claim_C8_witness :
    skills_match "js" "javascript" = true ∧ skills_match "javascript" "js" = true :=
  claim_C8 "js" "javascript"
    ⟨("javascript", ["javascript", "js"]), by decide, by decide, by decide⟩

/-- C9: job-role search consults the key only through its normalization
(lowercase, space/hyphen to underscore); an absent normalized key yields the
NotFound result carrying the full list of role keys, and a present one yields
the success result with that role's ranked candidates. -/
theorem claim_C9 (job_roles : List (String × JobRole)) (cands : List Candidate)
    (key : String) :
    (∀ key2 : String, normalize_role_key key2 = normalize_role_key key →
      search_by_job_role job_roles cands key2 = search_by_job_role job_roles cands key) ∧
    (normalize_role_key key ∉ job_roles.map Prod.fst →
      search_by_job_role job_roles cands key =
        RoleSearchResult.notFound ("Job role " ++ normalize_role_key key ++ " not found")
          (job_roles.map Prod.fst)) ∧
    (∀ role : JobRole, job_roles.lookup (normalize_role_key key) = some role →
      search_by_job_role job_roles cands key =
        RoleSearchResult.found role.title role.skills (role_results role.skills cands).length
          (role_results role.skills cands)) := by
  refine ⟨?_, ?_, ?_⟩
  · intro key2 hk
    simp only [search_by_job_role]
    rw [hk]
  · intro hnot
    simp only [search_by_job_role]
    rw [lookup_eq_none_of_not_mem _ _ hnot]
  · intro role hrole
    simp only [search_by_job_role]
    rw [hrole]

/-- C9, witness: the key "chef" is absent from a one-role configuration and the
failure carries the available keys. -/
theorem claim_C9_witness :
    search_by_job_role [("data_scientist", JobRole.mk "Data Scientist" ["python", "sql"])]
        [] "chef" =
      RoleSearchResult.notFound ("Job role " ++ normalize_role_key "chef" ++ " not found")
        ["data_scientist"] :=
  (claim_C9 [("data_scientist", JobRole.mk "Data Scientist" ["python", "sql"])] [] "chef").2.1
    (by decide)

/-- C10: a name that strips to the empty string (empty, whitespace-only, or the
falsy `None` which the source collapses to `""`) makes record return `False`
and leave the store unchanged; a non-blank name returns `True`. -/
theorem claim_C10 (now : Nat × Nat) (cname : String) (exps : List ExperienceEntry)
    (skills : List String) (db : List ShortRow) :
    (stripStr cname = "" → store_shortlisted_candidate now cname exps skills db = (false, db)) ∧
    (stripStr cname ≠ "" → (store_shortlisted_candidate now cname exps skills db).1 = true) := by
  constructor
  · intro h
    simp only [store_shortlisted_candidate, if_pos h]
  · intro h
    simp only [store_shortlisted_candidate, if_neg h]

/-- C10, witness: a whitespace-only name is rejected with the store unchanged;
a non-blank name succeeds. -/
theorem claim_C10_witness :
    store_shortlisted_candidate (2024, 6) "   " [] ["Python"] [] = (false, []) ∧
    (store_shortlisted_candidate (2024, 6) "Ada" [] ["Python"] []).1 = true :=
  ⟨(claim_C10 (2024, 6) "   " [] ["Python"] []).1 (by decide),
   (claim_C10 (2024, 6) "Ada" [] ["Python"] []).2 (by decide)⟩

end ResumeParser
